import Mathlib

/-!
Shallow embedding of the `sqlx` helper layer (Go) and verification of its
specification claims.

The embedding mirrors the Go source:
* `KeyValue.Split` / `KeyValue.SplitWrap` — the pure map-to-SQL-fragment
  splitter.  A Go `map[string]interface{}` is modelled as an association
  list `List (String × α)` capturing the (unspecified) iteration order of
  one particular `range` loop; the value type is kept abstract because the
  splitter never inspects values.
* `Meta.Do` — the CRUD dispatcher.  Database primitives (`conn.Create`,
  `db.Exec`, …) are external collaborators, modelled as an oracle record
  `ConnModel` whose result types are abstract.  Wall-clock `Runtime`
  measurement is omitted (real time is outside the embedding).
* the connection registry (`RegisterDB`, `New`, `UnregisterDB`/`CloseAll`,
  `Get`/`DB`) — the global `map[string]*sql.DB` is an association list of
  handle records; `sql.Open` + `Ping` success is an oracle on the config,
  and a fresh-handle counter models pointer identity of `*sql.DB` values.
-/

set_option autoImplicit false

namespace Sqlx

universe u v w x

variable {α : Type u} {ρ : Type v} {σ : Type w} {τ : Type x}

/-! ## KeyValue splitter (Go: `KeyValue`, `Split`, `SplitWrap`, `Fields.Join`) -/

/-- Go `type KeyValue map[string]interface{}` under one fixed iteration
order of a `range` loop; keys are unique in a Go map, but no splitter
operation depends on that. -/
abbrev KeyValue (α : Type u) := List (String × α)

/-- Models the Go byte-slicing `s[:len(s)-1]`.  Every use in the source
chops a trailing ASCII `','`, a one-byte character, so dropping the last
byte coincides with dropping the last character. -/
def chopLast (s : String) : String := ⟨s.data.dropLast⟩

/-- Go `KeyValue.Split`: one `range` pass accumulating
`field += "`" + k + "`,"`, `ps += "?,"`, `args = append(args, v)`,
then both strings lose their trailing comma.  Returns
(field string, placeholder string, argument list). -/
def KeyValue.Split (kv : KeyValue α) : String × String × List α :=
  if kv.length = 0 then ("", "", [])
  else
    let r := kv.foldl
      (fun (acc : String × String × List α) p =>
        (acc.1 ++ "`" ++ p.1 ++ "`" ++ ",", acc.2.1 ++ "?" ++ ",", acc.2.2 ++ [p.2]))
      ("", "", [])
    (chopLast r.1, chopLast r.2.1, r.2.2)

/-- Go `KeyValue.SplitWrap`: one `range` pass accumulating
`ps += "`" + k + "`" + "=?,"`, `args = append(args, v)`, then the string
loses its trailing comma.  Returns (assignment string, argument list). -/
def KeyValue.SplitWrap (kv : KeyValue α) : String × List α :=
  if kv.length = 0 then ("", [])
  else
    let r := kv.foldl
      (fun (acc : String × List α) p =>
        (acc.1 ++ "`" ++ p.1 ++ "`" ++ "=?" ++ ",", acc.2 ++ [p.2]))
      ("", [])
    (chopLast r.1, r.2)

/-- Go `strings.Join(elems, sep)`. -/
def stringsJoin (elems : List String) (sep : String) : String :=
  match elems with
  | [] => ""
  | x :: xs => xs.foldl (fun acc e => acc ++ sep ++ e) x

/-- Go `Fields.Join`: `"`" + strings.Join(f, "`,`") + "`"`. -/
def FieldsJoin (f : List String) : String :=
  "`" ++ stringsJoin f "`,`" ++ "`"

/-- Specification-side description of a comma-separated list: the pieces
joined with `","` and no trailing separator. -/
def commaJoin : List String → String
  | [] => ""
  | [x] => x
  | x :: y :: t => x ++ "," ++ commaJoin (y :: t)

/-! ### Splitter lemmas -/

/-- Concatenation (without separators) of a rendering of each entry. -/
def catMap (f : String × α → String) : List (String × α) → String
  | [] => ""
  | p :: rest => f p ++ catMap f rest

theorem string_ext {s t : String} (h : s.data = t.data) : s = t := by
  cases s; cases t; exact congrArg String.mk h

theorem string_data_append (s t : String) : (s ++ t).data = s.data ++ t.data := rfl

theorem string_empty_append (s : String) : "" ++ s = s :=
  string_ext (by rw [string_data_append]; rfl)

theorem chopLast_append_comma (s : String) : chopLast (s ++ ",") = s := by
  apply string_ext
  show ((s ++ ",").data).dropLast = s.data
  rw [string_data_append]
  simp

theorem catMap_eq_commaJoin_append (f g : String × α → String)
    (hfg : ∀ p, f p = g p ++ ",") (p : String × α) (kv : List (String × α)) :
    catMap f (p :: kv) = commaJoin ((p :: kv).map g) ++ "," := by
  induction kv generalizing p with
  | nil => simp [catMap, commaJoin, hfg]
  | cons q rest ih =>
      have hrec := ih q
      have : catMap f (p :: q :: rest) = f p ++ catMap f (q :: rest) := rfl
      rw [this, hrec, hfg p]
      apply string_ext
      simp [string_data_append, commaJoin, List.append_assoc]

theorem split_foldl (kv : List (String × α)) (a b : String) (c : List α) :
    kv.foldl
      (fun (acc : String × String × List α) p =>
        (acc.1 ++ "`" ++ p.1 ++ "`" ++ ",", acc.2.1 ++ "?" ++ ",", acc.2.2 ++ [p.2]))
      (a, b, c)
    = (a ++ catMap (fun p => "`" ++ p.1 ++ "`" ++ ",") kv,
       b ++ catMap (fun _ => "?" ++ ",") kv,
       c ++ kv.map Prod.snd) := by
  induction kv generalizing a b c with
  | nil => simp [catMap]
  | cons p rest ih =>
      simp only [List.foldl_cons, ih, catMap, List.map_cons]
      refine Prod.ext ?_ (Prod.ext ?_ ?_) <;>
        first
          | (apply string_ext; simp [string_data_append])
          | simp

theorem splitWrap_foldl (kv : List (String × α)) (a : String) (c : List α) :
    kv.foldl
      (fun (acc : String × List α) p =>
        (acc.1 ++ "`" ++ p.1 ++ "`" ++ "=?" ++ ",", acc.2 ++ [p.2]))
      (a, c)
    = (a ++ catMap (fun p => "`" ++ p.1 ++ "`" ++ "=?" ++ ",") kv,
       c ++ kv.map Prod.snd) := by
  induction kv generalizing a c with
  | nil => simp [catMap]
  | cons p rest ih =>
      simp only [List.foldl_cons, ih, catMap, List.map_cons]
      refine Prod.ext ?_ ?_ <;>
        first
          | (apply string_ext; simp [string_data_append])
          | simp

/-- Closed form of `Split` on a non-empty map. -/
theorem split_cons (p : String × α) (kv : List (String × α)) :
    KeyValue.Split (p :: kv)
      = (commaJoin ((p :: kv).map (fun q => "`" ++ q.1 ++ "`")),
         commaJoin ((p :: kv).map (fun _ => "?")),
         (p :: kv).map Prod.snd) := by
  have hlen : (p :: kv).length ≠ 0 := by simp
  rw [KeyValue.Split, if_neg hlen]
  rw [split_foldl]
  simp only
  rw [catMap_eq_commaJoin_append (fun q => "`" ++ q.1 ++ "`" ++ ",")
        (fun q => "`" ++ q.1 ++ "`")
        (fun q => by apply string_ext; simp [string_data_append]) p kv,
      catMap_eq_commaJoin_append (fun _ => "?" ++ ",") (fun _ => "?")
        (fun q => rfl) p kv,
      string_empty_append, string_empty_append,
      chopLast_append_comma, chopLast_append_comma]
  rfl

/-- Closed form of `SplitWrap` on a non-empty map. -/
theorem splitWrap_cons (p : String × α) (kv : List (String × α)) :
    KeyValue.SplitWrap (p :: kv)
      = (commaJoin ((p :: kv).map (fun q => "`" ++ q.1 ++ "`=?")),
         (p :: kv).map Prod.snd) := by
  have hlen : (p :: kv).length ≠ 0 := by simp
  rw [KeyValue.SplitWrap, if_neg hlen]
  rw [splitWrap_foldl]
  simp only
  rw [catMap_eq_commaJoin_append (fun q => "`" ++ q.1 ++ "`" ++ "=?" ++ ",")
        (fun q => "`" ++ q.1 ++ "`=?")
        (fun q => by apply string_ext; simp [string_data_append]) p kv,
      string_empty_append, chopLast_append_comma]
  rfl

/-- The argument list produced by `SplitWrap` is the value column of the
map, for every map (empty included). -/
theorem splitWrap_args (kv : KeyValue α) :
    (KeyValue.SplitWrap kv).2 = kv.map Prod.snd := by
  cases kv with
  | nil => rfl
  | cons p rest => rw [splitWrap_cons]

/-- The argument list produced by `Split` is the value column of the map,
for every map (empty included). -/
theorem split_args (kv : KeyValue α) :
    (KeyValue.Split kv).2.2 = kv.map Prod.snd := by
  cases kv with
  | nil => rfl
  | cons p rest => rw [split_cons]

/-- The number of `?` characters in a comma-join of `?` pieces. -/
theorem commaJoin_question_count (l : List (String × α)) :
    ((commaJoin (l.map (fun _ => "?"))).data.count '?') = l.length := by
  induction l with
  | nil => rfl
  | cons p rest ih =>
      cases rest with
      | nil => rfl
      | cons q t =>
          show ((("?" ++ ",") ++ commaJoin ((q :: t).map (fun _ => "?"))).data.count '?')
            = (q :: t).length + 1
          rw [string_data_append]
          rw [List.count_append]
          have : ((("?" : String) ++ ",").data.count '?') = 1 := rfl
          rw [this]
          have ih2 := ih
          simp only [List.map_cons] at ih2 ⊢
          omega

/-! ## Errors (Go: `errors.New` values) -/

/-- The error values the embedded functions can return.  Named errors
mirror the Go package-level variables; `custom` carries the message of an
inline `errors.New`; `driver` stands for a driver-level open/ping error. -/
inductive SqlErr where
  | resultNil
  | invalidCurd
  | connName
  | unregister
  | driver
  | custom (msg : String)
deriving DecidableEq

/-! ## `fmt.Sprintf` on the fixed `%s`-only SQL templates -/

/-- Character-level `%s` substitution, the fragment of Go `fmt.Sprintf`
the templates use (all verbs are `%s`). -/
def subst : List Char → List String → List Char
  | [], _ => []
  | '%' :: 's' :: rest, a :: args => a.data ++ subst rest args
  | '%' :: 's' :: rest, [] => "%!s(MISSING)".data ++ subst rest []
  | c :: rest, args => c :: subst rest args

def sprintf (tmpl : String) (args : List String) : String :=
  ⟨subst tmpl.data args⟩

/-- Go `rawInsert = INSERT INTO %s(%s)VALUES(%s)` (no space before
`VALUES` in the source). -/
def rawInsert : String := "INSERT INTO %s(%s)VALUES(%s)"

/-- Go `rawUpdate = UPDATE %s SET %s WHERE %s`. -/
def rawUpdate : String := "UPDATE %s SET %s WHERE %s"

/-- Go `rawDelete = DELETE FROM %s WHERE %s`. -/
def rawDelete : String := "DELETE FROM %s WHERE %s"

/-- Go `rawQuery = SELECT %s FROM %s WHERE %s`. -/
def rawQuery : String := "SELECT %s FROM %s WHERE %s"

/-! ## Operation descriptor and dispatcher (Go: `Curd`, `Meta`, `Done`, `Meta.Do`) -/

/-- Go `type Curd uint8`; the named codes are `C U R D = 0 1 2 3` and any
other value is an unrecognized operation.  (The Go type is bounded by 255;
the bound plays no role in dispatch, which compares against the four
codes.) -/
abbrev Curd := Nat

def C : Curd := 0
def U : Curd := 1
def R : Curd := 2
def D : Curd := 3

/-- Go `Query` option struct. -/
structure Query where
  Fields : List String
  Batch : Bool

/-- Go `Meta` execution unit. -/
structure Meta (α : Type u) where
  Op : Curd
  Table : String
  Query : Query
  Values : KeyValue α
  Where : KeyValue α

/-- The connection primitives `Meta.Do` and the `Easy*` helpers route to.
They are external collaborators (prepared-statement execution against a
live database), modelled as an oracle: each primitive maps the query text
and argument list to an abstract result and an optional error.  `exec`
models `db.Exec` as used by `TraceExec` (including its rows-affected
retrieval); `queryRow` models `db.QueryRow`, which always yields a row
handle and no immediate error. -/
structure ConnModel (α : Type u) (ρ : Type v) (σ : Type w) (τ : Type x) where
  create : String → List α → Option ρ × Option SqlErr
  update : String → List α → Option ρ × Option SqlErr
  delete : String → List α → Option ρ × Option SqlErr
  queryRow : String → List α → σ
  queryRows : String → List α → Option τ × Option SqlErr
  exec : String → List α → Option ρ × Option SqlErr

/-- Go `Done` result wrapper; the zero value has every payload nil and nil
error.  The wall-clock `Runtime` field is outside the embedding. -/
structure Done (ρ : Type v) (σ : Type w) (τ : Type x) where
  result : Option ρ
  row : Option σ
  rows : Option τ
  Err : Option SqlErr

/-- Go `Meta.Do`: the `switch m.Op` dispatch.  Each case builds the query
text from a fixed template and the splitter output and routes to the
matching connection primitive; the default case sets `ErrInvalidCurd` on
an otherwise zero-valued `Done`. -/
def Meta.Do (m : Meta α) (conn : ConnModel α ρ σ τ) : Done ρ σ τ :=
  if m.Op = C then
    let s := m.Values.Split
    let e := conn.create (sprintf rawInsert [m.Table, s.1, s.2.1]) s.2.2
    { result := e.1, row := none, rows := none, Err := e.2 }
  else if m.Op = U then
    let f := m.Values.SplitWrap
    let w := m.Where.SplitWrap
    let merge := f.2 ++ w.2
    let e := conn.update (sprintf rawUpdate [m.Table, f.1, w.1]) merge
    { result := e.1, row := none, rows := none, Err := e.2 }
  else if m.Op = R then
    let fw := m.Where.SplitWrap
    let search := if m.Query.Fields.length > 0 then stringsJoin m.Query.Fields "," else "*"
    if m.Query.Batch then
      let e := conn.queryRows (sprintf rawQuery [search, m.Table, fw.1]) fw.2
      { result := none, row := none, rows := e.1, Err := e.2 }
    else
      { result := none,
        row := some (conn.queryRow (sprintf rawQuery [search, m.Table, fw.1]) fw.2),
        rows := none, Err := none }
  else if m.Op = D then
    let fw := m.Where.SplitWrap
    let e := conn.delete (sprintf rawDelete [m.Table, fw.1]) fw.2
    { result := e.1, row := none, rows := none, Err := e.2 }
  else
    { result := none, row := none, rows := none, Err := some SqlErr.invalidCurd }

/-! ## `Easy*` convenience helpers (Go: `Conn.EasyInsert` etc.) -/

/-- Go `Conn.EasyInsert`: reject an empty value map, else split and run
the INSERT template through `TraceExec` (`db.Exec`). -/
def EasyInsert (conn : ConnModel α ρ σ τ) (table : String) (kv : KeyValue α) :
    Option ρ × Option SqlErr :=
  if kv.length = 0 then (none, some (SqlErr.custom "invalid insert values"))
  else
    let s := kv.Split
    conn.exec (sprintf rawInsert [table, s.1, s.2.1]) s.2.2

/-- Go `Conn.EasyDelete`: reject an empty condition map, else split in
assignment form and run the DELETE template through `TraceExec`. -/
def EasyDelete (conn : ConnModel α ρ σ τ) (table : String) (wh : KeyValue α) :
    Option ρ × Option SqlErr :=
  if wh.length = 0 then (none, some (SqlErr.custom "invalid delete condition"))
  else
    let fw := wh.SplitWrap
    conn.exec (sprintf rawDelete [table, fw.1]) fw.2

/-- Go `Conn.EasyUpdate`: reject an empty value or condition map, else
split both in assignment form, append condition args after value args,
and run the UPDATE template through `TraceUpdate` (`TraceExec`). -/
def EasyUpdate (conn : ConnModel α ρ σ τ) (table : String) (kv wh : KeyValue α) :
    Option ρ × Option SqlErr :=
  if kv.length = 0 ∨ wh.length = 0 then
    (none, some (SqlErr.custom "invalid update KeyValue"))
  else
    let st := kv.SplitWrap
    let wf := wh.SplitWrap
    let merged := st.2 ++ wf.2
    conn.exec (sprintf rawUpdate [table, st.1, wf.1]) merged

/-- A connection oracle that records the query text and argument list it
was handed, used to observe what the dispatcher passes to execution. -/
def probeConn (α : Type u) : ConnModel α (String × List α) (String × List α) (String × List α) :=
  { create := fun q a => (some (q, a), none)
    update := fun q a => (some (q, a), none)
    delete := fun q a => (some (q, a), none)
    queryRow := fun q a => (q, a)
    queryRows := fun q a => (some (q, a), none)
    exec := fun q a => (some (q, a), none) }

/-! ## Connection registry (Go: `RegisterDB`, `New`, `UnregisterDB`/`CloseAll`,
`Get`/`DB`, `ConfigMap.Set`) -/

/-- Go `Config` (DSN + pool sizing). -/
structure Config where
  DSN : String
  MaxOpenConns : Int
  MaxIdleConns : Int
  MaxLifetime : Int
  MaxIdleTime : Int
deriving DecidableEq

/-- Go `Config.Validate` (the `ConfigMap` variant): non-empty DSN and
non-negative pool parameters. -/
def Config.Validate (c : Config) : Bool :=
  c.DSN ≠ "" && c.MaxOpenConns ≥ 0 && c.MaxIdleConns ≥ 0 && c.MaxLifetime ≥ 0 && c.MaxIdleTime ≥ 0

/-- A `*sql.DB` handle: `id` models pointer identity (fresh per `Open`),
`closed` whether `Close` has run on it. -/
structure DBh where
  id : Nat
  closed : Bool
deriving DecidableEq

/-- The global `pool map[string]*sql.DB` as an association list with
unique keys (`poolInsert` keeps them unique). -/
abbrev Pool := List (String × DBh)

/-- Go map assignment `pool[s] = conn`: overwrite in place or append. -/
def poolInsert (s : String) (db : DBh) : Pool → Pool
  | [] => [(s, db)]
  | (k, v) :: rest => if k = s then (s, db) :: rest else (k, v) :: poolInsert s db rest

/-- Go map read `pool[connName]`. -/
def poolFind (s : String) : Pool → Option DBh
  | [] => none
  | (k, v) :: rest => if k = s then some v else poolFind s rest

/-- Registry state: the pool map plus a fresh-handle counter standing in
for allocation of new `*sql.DB` values by `Open`. -/
structure RegState where
  pool : Pool
  next : Nat
deriving DecidableEq

/-- Go `RegisterDB(dbConfigs)` (and the loop body of `New`): for each
entry, `Open` + `Ping` (success decided by the external oracle `openOk`;
on success a fresh handle is produced), then `pool[s] = conn`; the first
failure returns the driver error immediately, keeping the entries already
stored.  The input list fixes one iteration order of the Go map. -/
def RegisterDB (openOk : Config → Bool) :
    List (String × Config) → RegState → RegState × Option SqlErr
  | [], st => (st, none)
  | (s, c) :: rest, st =>
    if openOk c then
      RegisterDB openOk rest ⟨poolInsert s ⟨st.next, false⟩ st.pool, st.next + 1⟩
    else (st, some SqlErr.driver)

/-- Go `New(configs)` (the `ConfigMap` variant): validate every config up
front, then run the same open/ping/store loop as `RegisterDB`. -/
def New (openOk : Config → Bool) (configs : List (String × Config)) (st : RegState) :
    RegState × Option SqlErr :=
  if configs.all (fun p => p.2.Validate) then RegisterDB openOk configs st
  else (st, some (SqlErr.custom "incorrect config parameters"))

/-- Go `UnregisterDB` / `CloseAll`: `for _, db := range pool { _ = Close(db) }`
— every stored handle is closed (errors discarded), and the map itself is
left untouched (no `delete`, no reassignment).  Total: it cannot fail. -/
def UnregisterDB (st : RegState) : RegState :=
  ⟨st.pool.map (fun p => (p.1, ⟨p.2.id, true⟩)), st.next⟩

/-- Go `Get` / `DB`: empty name errors with `ErrConnName`; a present name
returns a handle sharing the stored pool entry; an absent name errors
with `ErrUnregister`. -/
def Get (connName : String) (st : RegState) : Except SqlErr DBh :=
  if connName = "" then Except.error SqlErr.connName
  else
    match poolFind connName st.pool with
    | some p => Except.ok p
    | none => Except.error SqlErr.unregister

/-- Go `ConfigMap` (`map[string]Config`). -/
abbrev ConfigMap := List (String × Config)

/-- Go map read on a `ConfigMap`. -/
def cfgFind (s : String) : ConfigMap → Option Config
  | [] => none
  | (k, v) :: rest => if k = s then some v else cfgFind s rest

/-- Go map assignment on a `ConfigMap`. -/
def cfgInsert (s : String) (c : Config) : ConfigMap → ConfigMap
  | [] => [(s, c)]
  | (k, v) :: rest => if k = s then (s, c) :: rest else (k, v) :: cfgInsert s c rest

/-- Go `ConfigMap.Set`: reject a name already present
(`errors.New("exists connection config")`), else store the config. -/
def ConfigMap.Set (cmp : ConfigMap) (connName : String) (config : Config) :
    Except SqlErr ConfigMap :=
  if (cfgFind connName cmp).isSome then
    Except.error (SqlErr.custom "exists connection config")
  else Except.ok (cfgInsert connName config cmp)

/-! ### Registry lemmas -/

theorem poolFind_poolInsert_self (n : String) (db : DBh) (l : Pool) :
    poolFind n (poolInsert n db l) = some db := by
  induction l with
  | nil => simp [poolInsert, poolFind]
  | cons q rest ih =>
      obtain ⟨k, v⟩ := q
      by_cases h : k = n <;> simp [poolInsert, poolFind, h, ih]

theorem poolFind_isSome_poolInsert (k s : String) (db : DBh) (l : Pool)
    (h : (poolFind k l).isSome) : (poolFind k (poolInsert s db l)).isSome := by
  induction l with
  | nil => simp [poolFind] at h
  | cons q rest ih =>
      obtain ⟨k0, v0⟩ := q
      simp only [poolInsert]
      by_cases hs : k0 = s
      · subst hs
        rw [if_pos rfl]
        simp only [poolFind] at h ⊢
        by_cases hk : k0 = k
        · rw [if_pos hk]; rfl
        · rw [if_neg hk] at h ⊢; exact h
      · rw [if_neg hs]
        simp only [poolFind] at h ⊢
        by_cases hk : k0 = k
        · rw [if_pos hk]; rfl
        · rw [if_neg hk] at h ⊢
          exact ih h

theorem registerDB_preserves_found (oracle : Config → Bool)
    (l : List (String × Config)) (st : RegState) (k : String)
    (h : (poolFind k st.pool).isSome) :
    (poolFind k (RegisterDB oracle l st).1.pool).isSome := by
  induction l generalizing st with
  | nil => simpa [RegisterDB] using h
  | cons q rest ih =>
      obtain ⟨s, c⟩ := q
      by_cases hc : oracle c
      · rw [RegisterDB, if_pos hc]
        exact ih _ (poolFind_isSome_poolInsert k s ⟨st.next, false⟩ st.pool h)
      · rw [RegisterDB, if_neg hc]
        exact h

theorem poolFind_map_closed (l : Pool) (n : String) (db : DBh)
    (h : poolFind n l = some db) :
    poolFind n (l.map (fun p => (p.1, (⟨p.2.id, true⟩ : DBh)))) = some ⟨db.id, true⟩ := by
  induction l with
  | nil => simp [poolFind] at h
  | cons q rest ih =>
      obtain ⟨k, v⟩ := q
      by_cases hk : k = n
      · simp [poolFind, hk] at h ⊢
        rw [← h]
      · simp [poolFind, hk] at h ⊢
        exact ih h

/-! ## Claim theorems -/

/-- C1: for every non-empty KeyValue map (written as `p :: kv`, one
iteration order of a non-empty map), `Split` returns the comma-join of
one backtick-quoted field per entry, the comma-join of one `?` per entry
(so the field count, the `?` count and the argument count all equal the
map's size), and the argument list is the value column — the i-th
argument is the value mapped from the i-th field.  Likewise `SplitWrap`
returns the comma-join of one `` `field`=? `` clause per entry with the
argument list the value column, so the i-th argument is the value of the
i-th clause's field. -/
theorem claim_c1_splitter_correspondence (p : String × α) (kv : List (String × α)) :
    KeyValue.Split (p :: kv)
      = (commaJoin ((p :: kv).map (fun q => "`" ++ q.1 ++ "`")),
         commaJoin ((p :: kv).map (fun _ => "?")),
         (p :: kv).map Prod.snd)
    ∧ ((KeyValue.Split (p :: kv)).2.1.data.count '?') = (p :: kv).length
    ∧ KeyValue.SplitWrap (p :: kv)
      = (commaJoin ((p :: kv).map (fun q => "`" ++ q.1 ++ "`=?")),
         (p :: kv).map Prod.snd) := by
  refine ⟨split_cons p kv, ?_, splitWrap_cons p kv⟩
  rw [split_cons]
  exact commaJoin_question_count (p :: kv)

/-- C2: every Update dispatch passes the value-map arguments followed by
the condition-map arguments to execution, matching the
`SET ... WHERE ...` placeholder order: `Meta.Do` with `Op = U` (for any
maps, empty included) and `EasyUpdate` (on non-empty maps, its guarded
domain) both hand the connection the list
`values.map Prod.snd ++ where.map Prod.snd`. -/
theorem claim_c2_update_arg_order (table : String) (q : Query) (values wh : KeyValue α) :
    (Meta.Do ⟨U, table, q, values, wh⟩ (probeConn α)).result
      = some (sprintf rawUpdate [table, values.SplitWrap.1, wh.SplitWrap.1],
              values.map Prod.snd ++ wh.map Prod.snd)
    ∧ ∀ (pv pw : String × α) (vs ws : List (String × α)),
        EasyUpdate (probeConn α) table (pv :: vs) (pw :: ws)
          = (some (sprintf rawUpdate
                      [table, KeyValue.SplitWrap (pv :: vs) |>.1,
                       KeyValue.SplitWrap (pw :: ws) |>.1],
                   (pv :: vs).map Prod.snd ++ (pw :: ws).map Prod.snd),
             none) := by
  constructor
  · simp [Meta.Do, C, U, probeConn, splitWrap_args]
  · intro pv pw vs ws
    simp [EasyUpdate, probeConn, splitWrap_args]

/-- C3 counterexample: the code's INSERT template has no space before
`VALUES`.  Under both iteration orders of the two-entry map
`{"first_name":"foo","last_name":"bar"}`, the Create dispatch on table
`profile` produces `INSERT INTO profile(...)VALUES(?,?)`, which differs
from the claimed text `INSERT INTO profile(...) VALUES(?,?)` in either
field order. -/
theorem claim_c3_counterexample :
    ((Meta.Do ⟨C, "profile", ⟨[], false⟩,
        [("first_name", "foo"), ("last_name", "bar")], []⟩ (probeConn String)).result
      = some ("INSERT INTO profile(`first_name`,`last_name`)VALUES(?,?)", ["foo", "bar"]))
    ∧ ((Meta.Do ⟨C, "profile", ⟨[], false⟩,
        [("last_name", "bar"), ("first_name", "foo")], []⟩ (probeConn String)).result
      = some ("INSERT INTO profile(`last_name`,`first_name`)VALUES(?,?)", ["bar", "foo"]))
    ∧ ("INSERT INTO profile(`first_name`,`last_name`)VALUES(?,?)"
        ≠ "INSERT INTO profile(`first_name`,`last_name`) VALUES(?,?)")
    ∧ ("INSERT INTO profile(`first_name`,`last_name`)VALUES(?,?)"
        ≠ "INSERT INTO profile(`last_name`,`first_name`) VALUES(?,?)")
    ∧ ("INSERT INTO profile(`last_name`,`first_name`)VALUES(?,?)"
        ≠ "INSERT INTO profile(`first_name`,`last_name`) VALUES(?,?)")
    ∧ ("INSERT INTO profile(`last_name`,`first_name`)VALUES(?,?)"
        ≠ "INSERT INTO profile(`last_name`,`first_name`) VALUES(?,?)") := by
  refine ⟨rfl, rfl, ?_, ?_, ?_, ?_⟩ <;> decide

/-- C3 amended: a Create dispatch on table `profile` with value map
`{"first_name":"foo","last_name":"bar"}` produces exactly the SQL text
`INSERT INTO profile(`first_name`,`last_name`)VALUES(?,?)` — no space
before `VALUES`, per the code's template
`INSERT INTO {table}({fields})VALUES({placeholders})` — with argument
list `["foo","bar"]`, up to the internally consistent field order (both
iteration orders shown). -/
theorem claim_c3_insert_text :
    ((Meta.Do ⟨C, "profile", ⟨[], false⟩,
        [("first_name", "foo"), ("last_name", "bar")], []⟩ (probeConn String)).result
      = some ("INSERT INTO profile(`first_name`,`last_name`)VALUES(?,?)", ["foo", "bar"]))
    ∧ ((Meta.Do ⟨C, "profile", ⟨[], false⟩,
        [("last_name", "bar"), ("first_name", "foo")], []⟩ (probeConn String)).result
      = some ("INSERT INTO profile(`last_name`,`first_name`)VALUES(?,?)", ["bar", "foo"])) :=
  ⟨rfl, rfl⟩

/-- C4 counterexample: `UnregisterDB`/`CloseAll` never clear the registry
mapping.  Starting from an empty registry, registering name `"a"` and
then running `UnregisterDB` leaves the entry in place: a subsequent `Get`
of `"a"` succeeds with the (now closed) handle instead of failing with
`ErrUnregister`. -/
theorem claim_c4_counterexample :
    (RegisterDB (fun _ => true) [("a", ⟨"dsn", 1, 1, 1, 1⟩)] ⟨[], 0⟩
      = (⟨[("a", ⟨0, false⟩)], 1⟩, none))
    ∧ Get "a" (UnregisterDB ⟨[("a", ⟨0, false⟩)], 1⟩) = Except.ok ⟨0, true⟩
    ∧ Get "a" (UnregisterDB ⟨[("a", ⟨0, false⟩)], 1⟩) ≠ Except.error SqlErr.unregister := by
  refine ⟨rfl, rfl, ?_⟩
  intro h
  exact Except.noConfusion h

/-- C4 amended: after `UnregisterDB`/`CloseAll` runs, every stored pool
handle is closed and the operation is idempotent and total (it cannot
fail; close errors are discarded) — but the registry mapping is NOT
cleared: the name set is unchanged and a subsequent `Get` of any
previously registered (non-empty) name still succeeds, returning a handle
to the closed pool rather than the `ErrUnregister` error. -/
theorem claim_c4_unregister (st : RegState) :
    (∀ p, p ∈ (UnregisterDB st).pool → p.2.closed = true)
    ∧ UnregisterDB (UnregisterDB st) = UnregisterDB st
    ∧ (UnregisterDB st).pool.map Prod.fst = st.pool.map Prod.fst
    ∧ ∀ n db, poolFind n st.pool = some db → n ≠ "" →
        Get n (UnregisterDB st) = Except.ok ⟨db.id, true⟩ := by
  refine ⟨?_, ?_, ?_, ?_⟩
  · intro p hp
    simp [UnregisterDB] at hp
    obtain ⟨a, b, _, h2⟩ := hp
    rw [← h2]
  · simp [UnregisterDB, List.map_map]
  · simp [UnregisterDB, List.map_map]
  · intro n db hfind hn
    rw [Get, if_neg hn, UnregisterDB]
    rw [poolFind_map_closed st.pool n db hfind]

/-- Witness for `claim_c4_unregister` at a concrete one-entry registry. -/
theorem claim_c4_unregister_witness :
    Get "a" (UnregisterDB ⟨[("a", ⟨0, false⟩)], 1⟩) = Except.ok ⟨0, true⟩
    ∧ UnregisterDB (UnregisterDB ⟨[("a", ⟨0, false⟩)], 1⟩)
        = UnregisterDB ⟨[("a", ⟨0, false⟩)], 1⟩ :=
  ⟨(claim_c4_unregister ⟨[("a", ⟨0, false⟩)], 1⟩).2.2.2 "a" ⟨0, false⟩ rfl (by decide),
   (claim_c4_unregister ⟨[("a", ⟨0, false⟩)], 1⟩).2.1⟩

/-- C5 counterexample: the registry-level registration performs no
duplicate check.  With `"a"` already registered (handle 0), a second
`RegisterDB` of `"a"` succeeds (no error) and silently replaces the
stored entry with the fresh handle 1. -/
theorem claim_c5_counterexample :
    RegisterDB (fun _ => true) [("a", ⟨"dsn2", 1, 1, 1, 1⟩)] ⟨[("a", ⟨0, false⟩)], 1⟩
      = (⟨[("a", ⟨1, false⟩)], 2⟩, none)
    ∧ (⟨1, false⟩ : DBh) ≠ (⟨0, false⟩ : DBh) := by
  refine ⟨rfl, ?_⟩
  decide

/-- C5 amended: duplicate handling is split across layers.
`ConfigMap.Set` rejects a connection name already present in the config
map; but the registry itself has no duplicate check — for every registry
state containing name `n`, `RegisterDB` of `n` (with an openable config)
succeeds and silently overwrites the stored pool entry for `n` with a
fresh handle. -/
theorem claim_c5_register_duplicate (cmp : ConfigMap) (n : String) (c c0 : Config)
    (h : cfgFind n cmp = some c0) :
    ConfigMap.Set cmp n c = Except.error (SqlErr.custom "exists connection config")
    ∧ (∀ (oracle : Config → Bool) (st : RegState), oracle c = true →
        RegisterDB oracle [(n, c)] st
          = (⟨poolInsert n ⟨st.next, false⟩ st.pool, st.next + 1⟩, none))
    ∧ ∀ (db : DBh) (l : Pool), poolFind n (poolInsert n db l) = some db := by
  refine ⟨?_, ?_, ?_⟩
  · rw [ConfigMap.Set, if_pos (by rw [h]; rfl)]
  · intro oracle st hc
    rw [RegisterDB, if_pos hc]
    rfl
  · intro db l
    exact poolFind_poolInsert_self n db l

/-- Witness for `claim_c5_register_duplicate` at a concrete duplicate. -/
theorem claim_c5_register_duplicate_witness :
    ConfigMap.Set [("a", ⟨"dsn", 1, 1, 1, 1⟩)] "a" ⟨"dsn2", 1, 1, 1, 1⟩
      = Except.error (SqlErr.custom "exists connection config")
    ∧ RegisterDB (fun _ => true) [("a", ⟨"dsn2", 1, 1, 1, 1⟩)] ⟨[("a", ⟨0, false⟩)], 1⟩
      = (⟨[("a", ⟨1, false⟩)], 2⟩, none) := by
  have h := claim_c5_register_duplicate [("a", ⟨"dsn", 1, 1, 1, 1⟩)] "a"
    ⟨"dsn2", 1, 1, 1, 1⟩ ⟨"dsn", 1, 1, 1, 1⟩ rfl
  exact ⟨h.1, (h.2.1 (fun _ => true) ⟨[("a", ⟨0, false⟩)], 1⟩ rfl).trans (by decide)⟩

/-- C6 counterexample: the dispatcher `Meta.Do` performs no empty-map
check.  A Create dispatch with an empty value map reports no error of
its own and proceeds: it builds `INSERT INTO t()VALUES()` with an empty
argument list and hands it to execution. -/
theorem claim_c6_counterexample :
    (Meta.Do ⟨C, "t", ⟨[], false⟩, ([] : KeyValue String), []⟩ (probeConn String)).Err = none
    ∧ (Meta.Do ⟨C, "t", ⟨[], false⟩, ([] : KeyValue String), []⟩ (probeConn String)).result
        = some ("INSERT INTO t()VALUES()", []) :=
  ⟨rfl, rfl⟩

/-- C6 amended: the empty-map guard lives in the `Easy*` helpers, not in
the dispatcher.  `EasyInsert`, `EasyDelete` and `EasyUpdate` reject an
empty value/condition map with an error returned to the caller; `Meta.Do`
performs no such check and forwards the statement built from empty
fragments to the connection primitive, whose error (if any) is returned
unchanged to the caller — no path panics (every embedded function is
total). -/
theorem claim_c6_empty_map_errors (conn : ConnModel α ρ σ τ) (table : String)
    (kv wh : KeyValue α) :
    EasyInsert conn table ([] : KeyValue α)
      = (none, some (SqlErr.custom "invalid insert values"))
    ∧ EasyDelete conn table ([] : KeyValue α)
      = (none, some (SqlErr.custom "invalid delete condition"))
    ∧ EasyUpdate conn table ([] : KeyValue α) wh
      = (none, some (SqlErr.custom "invalid update KeyValue"))
    ∧ EasyUpdate conn table kv ([] : KeyValue α)
      = (none, some (SqlErr.custom "invalid update KeyValue"))
    ∧ (Meta.Do ⟨C, table, ⟨[], false⟩, ([] : KeyValue α), wh⟩ conn).Err
        = (conn.create (sprintf rawInsert [table, "", ""]) []).2 := by
  refine ⟨rfl, rfl, rfl, ?_, rfl⟩
  rw [EasyUpdate, if_pos (Or.inr List.length_nil)]

/-- C7 counterexample: the Read dispatch's projection list built from an
explicit field list is NOT backtick-quoted: with field list `["name"]`
the generated query is `SELECT name FROM t WHERE `id`=?`, not
`SELECT `name` FROM t WHERE `id`=?`. -/
theorem claim_c7_counterexample :
    (Meta.Do ⟨R, "t", ⟨["name"], false⟩, ([] : KeyValue String), [("id", "1")]⟩
        (probeConn String)).row
      = some ("SELECT name FROM t WHERE `id`=?", ["1"])
    ∧ (Meta.Do ⟨R, "t", ⟨["name"], false⟩, ([] : KeyValue String), [("id", "1")]⟩
        (probeConn String)).row
      ≠ some ("SELECT `name` FROM t WHERE `id`=?", ["1"]) := by
  refine ⟨rfl, ?_⟩
  decide

/-- C7 amended: field names drawn from KeyValue maps are always
backtick-quoted before concatenation — each piece of `Split`'s field
list is `` `field` `` and each clause of `SplitWrap`'s assignment list is
`` `field`=? `` — but the Read dispatch's projection list built from an
explicit field list is joined with plain commas, unquoted
(`strings.Join(fields, ",")`). -/
theorem claim_c7_field_quoting (p : String × α) (kv : List (String × α)) :
    (KeyValue.Split (p :: kv)).1
      = commaJoin ((p :: kv).map (fun q => "`" ++ q.1 ++ "`"))
    ∧ (KeyValue.SplitWrap (p :: kv)).1
      = commaJoin ((p :: kv).map (fun q => "`" ++ q.1 ++ "`=?"))
    ∧ ∀ (table f : String) (fs : List String) (wh : KeyValue α),
        (Meta.Do ⟨R, table, ⟨f :: fs, false⟩, ([] : KeyValue α), wh⟩ (probeConn α)).row
          = some (sprintf rawQuery [stringsJoin (f :: fs) ",", table, wh.SplitWrap.1],
                  wh.SplitWrap.2) := by
  refine ⟨?_, ?_, ?_⟩
  · rw [split_cons]
  · rw [splitWrap_cons]
  · intro table f fs wh
    simp [Meta.Do, C, U, R, probeConn]

/-- C8: dispatch of any operation descriptor whose kind is not one of
`C U R D` (= 0 1 2 3; `k + 4` ranges over every other code) returns the
`Done` wrapper whose error is `ErrInvalidCurd` and whose result, row and
rows payloads are all empty, for every connection and descriptor
contents. -/
theorem claim_c8_invalid_op (k : Nat) (table : String) (q : Query)
    (values wh : KeyValue α) (conn : ConnModel α ρ σ τ) :
    Meta.Do ⟨k + 4, table, q, values, wh⟩ conn
      = { result := none, row := none, rows := none, Err := some SqlErr.invalidCurd } := by
  have h0 : k + 4 ≠ C := by simp [C]
  have h1 : k + 4 ≠ U := by simp [U]
  have h2 : k + 4 ≠ R := by simp [R]
  have h3 : k + 4 ≠ D := by simp [D]
  rw [Meta.Do]
  simp only [h0, h1, h2, h3, if_false, ite_false]

/-- C9: the empty KeyValue map splits to empty field, placeholder and
assignment strings and an empty argument list, with no error channel at
all (both splitters are total; the Go code returns a non-nil empty
slice, modelled by the list `[]`). -/
theorem claim_c9_empty_split (α : Type u) :
    KeyValue.Split ([] : KeyValue α) = ("", "", [])
    ∧ KeyValue.SplitWrap ([] : KeyValue α) = ("", []) :=
  ⟨rfl, rfl⟩

/-- C10: registration of a multi-entry config list is not atomic.  If
every entry of a prefix `pre` opens successfully and the next entry's
open/ping fails, `RegisterDB` returns the driver error, and every name of
`pre` is stored in the resulting registry — the state is not rolled back
to its pre-call value. -/
theorem claim_c10_partial_registration (oracle : Config → Bool)
    (pre : List (String × Config)) (s : String) (c : Config)
    (rest : List (String × Config)) (st : RegState)
    (hpre : ∀ p, p ∈ pre → oracle p.2 = true) (hc : oracle c = false) :
    (RegisterDB oracle (pre ++ (s, c) :: rest) st).2 = some SqlErr.driver
    ∧ ∀ k, k ∈ pre.map Prod.fst →
        (poolFind k (RegisterDB oracle (pre ++ (s, c) :: rest) st).1.pool).isSome := by
  induction pre generalizing st with
  | nil =>
      refine ⟨?_, ?_⟩
      · rw [List.nil_append, RegisterDB, if_neg (by rw [hc]; exact Bool.false_ne_true)]
      · intro k hk
        simp at hk
  | cons q pre' ih =>
      obtain ⟨s0, c0⟩ := q
      have hq : oracle c0 = true := hpre (s0, c0) (List.mem_cons_self _ _)
      have hpre' : ∀ p, p ∈ pre' → oracle p.2 = true :=
        fun p hp => hpre p (List.mem_cons_of_mem _ hp)
      have step : RegisterDB oracle (((s0, c0) :: pre') ++ (s, c) :: rest) st
          = RegisterDB oracle (pre' ++ (s, c) :: rest)
              ⟨poolInsert s0 ⟨st.next, false⟩ st.pool, st.next + 1⟩ := by
        rw [List.cons_append, RegisterDB, if_pos hq]
      have ihst := ih ⟨poolInsert s0 ⟨st.next, false⟩ st.pool, st.next + 1⟩ hpre'
      refine ⟨by rw [step]; exact ihst.1, ?_⟩
      intro k hk
      rw [step]
      rcases List.mem_cons.mp hk with hk0 | hk'
      · subst hk0
        apply registerDB_preserves_found
        have : poolFind k (poolInsert k ⟨st.next, false⟩ st.pool) = some ⟨st.next, false⟩ :=
          poolFind_poolInsert_self k ⟨st.next, false⟩ st.pool
        rw [this]
        rfl
      · exact ihst.2 k hk'

/-- Witness for `claim_c10_partial_registration`: registering
`[("a", good), ("b", bad)]` from the empty registry fails with the driver
error yet leaves `"a"` stored. -/
theorem claim_c10_witness :
    (RegisterDB (fun c => c.DSN != "bad")
        [("a", ⟨"good", 1, 1, 1, 1⟩), ("b", ⟨"bad", 1, 1, 1, 1⟩)] ⟨[], 0⟩).2
      = some SqlErr.driver
    ∧ (poolFind "a"
        (RegisterDB (fun c => c.DSN != "bad")
          [("a", ⟨"good", 1, 1, 1, 1⟩), ("b", ⟨"bad", 1, 1, 1, 1⟩)] ⟨[], 0⟩).1.pool).isSome := by
  have h := claim_c10_partial_registration (fun c => c.DSN != "bad")
    [("a", ⟨"good", 1, 1, 1, 1⟩)] "b" ⟨"bad", 1, 1, 1, 1⟩ [] ⟨[], 0⟩
    (by intro p hp; simp at hp; rw [hp]; rfl) (by rfl)
  exact ⟨h.1, h.2 "a" (by simp)⟩

end Sqlx
